import Mathlib

/-!
# Verification of `datatools/pipe.py` (class `Pipe`)

Shallow embedding of `src/datatools/pipe.py` from the
`brakettech/tulsa_summary` repository, together with the external
collaborator boundaries it uses: `daq.pico.CSV`, `scipy.signal`,
`numpy`, and `datatools.harmonic.Harmonic`.  The last of these is not
part of the repository snapshot and is modelled from the design
specification (its definitions carry a `Modelled from the spec` note).
Machine floats are modelled as exact rationals, and the numeric kernels
of the external libraries are kept abstract: the embedding records
exactly which arguments `pipe.py` feeds to them.
-/

/-- A Python scalar value as it appears in a pandas cell: a number, a
string, or a missing value (`NaN`).  Floats are modelled as exact
rationals. -/
inductive PyVal where
  | num (q : ℚ)
  | str (s : String)
  | nan
deriving DecidableEq, Repr

/-- A pandas column or index label: either a plain (flat) string label
or a 3-level `MultiIndex` label as produced by `Pipe._indexify`. -/
inductive Label where
  | flat (s : String)
  | multi (a b c : String)
deriving DecidableEq, Repr

/-- A Python dictionary with label keys and cell values, in insertion
order (Python dictionaries preserve insertion order). -/
abbrev Row := List (Label × PyVal)

/-- A pandas DataFrame: a row index (one tuple of values per row, with
level names), an ordered list of column labels (with level names), and
the row-major cell values. -/
structure DF where
  indexNames : List (Option String) := [none]
  colNames : List (Option String) := [none]
  index : List (List PyVal) := []
  cols : List Label
  rows : List (List PyVal)
deriving DecidableEq, Repr

/-- The channel-trace table returned by the external `daq.pico.CSV`
collaborator for one data file, with the channel mapping used by
`process_all.py` (`a='sig_gen', b='res_volt', c='rec_volt',
d='sec_volt'`): a time column plus the four mapped channel columns. -/
structure Trace where
  t : List ℚ
  sig_gen : List ℚ
  res_volt : List ℚ
  sec_volt : List ℚ
  rec_volt : List ℚ
deriving DecidableEq, Repr

/-- Column access on a trace table by pandas column name, here for the
five columns the pipeline touches. -/
def Trace.col (df : Trace) (c : String) : List ℚ :=
  if c = "t" then df.t
  else if c = "sig_gen" then df.sig_gen
  else if c = "res_volt" then df.res_volt
  else if c = "sec_volt" then df.sec_volt
  else df.rec_volt

/-- Abstract interface to `scipy.signal`: `butter n wn` returns the
`(b, a)` coefficient arrays of an order-`n` low-pass Butterworth filter
with cutoff `wn` (scipy normalises `wn` so that `1` is the Nyquist
frequency, hence `wn = 1/100` is one percent of Nyquist), and
`filtfilt ba x padlen` runs the filter forward and backward over `x`
(zero net phase shift) with `padlen` padding samples at each edge.  The
numeric kernels are external to the repository and are kept abstract. -/
structure SciPy where
  butter : ℕ → ℚ → List ℚ × List ℚ
  filtfilt : List ℚ × List ℚ → List ℚ → ℕ → List ℚ

/-- Modelled from the spec: the least-squares estimation kernel of
`datatools/harmonic.py`, a repository file absent from the snapshot
(design §4.2).  `freq t v` is the estimated fundamental angular
frequency and `coef t v h` the fitted `(amplitude, phase)` phasor at
harmonic number `h`.  Phases are measured in units of π radians, so
that the π/2 phase shift of the derivative is the exact rational
`1/2`. -/
structure FitOracle where
  freq : List ℚ → List ℚ → ℚ
  coef : List ℚ → List ℚ → ℕ → ℚ × ℚ

/-- Modelled from the spec: a `Harmonic` fit result (design §3, §4.2):
the ordered harmonic-number set, the estimated fundamental angular
frequency, and one `(amplitude, phase)` phasor per harmonic number. -/
structure Harmonic where
  harmonics : List ℕ
  omega : ℚ
  phasors : List (ℚ × ℚ)
deriving DecidableEq, Repr

instance : Inhabited Harmonic := ⟨⟨[], 0, []⟩⟩

/-- Modelled from the spec: `Harmonic(harmonics=hs).fit(t, v)` fits one
phasor per requested harmonic number by least squares (design §4.2);
the numeric solve is delegated to the abstract kernel `o`. -/
def Harmonic.fit (o : FitOracle) (hs : List ℕ) (t v : List ℚ) : Harmonic :=
  { harmonics := hs, omega := o.freq t v, phasors := hs.map (o.coef t v) }

/-- Modelled from the spec: `amplitudes` is the sequence of fitted
amplitudes, aligned with the harmonic-number order (design §4.2). -/
def Harmonic.amplitudes (h : Harmonic) : List ℚ := h.phasors.map Prod.fst

/-- Modelled from the spec: `phases` is the sequence of fitted phases,
aligned with the harmonic-number order (design §4.2). -/
def Harmonic.phases (h : Harmonic) : List ℚ := h.phasors.map Prod.snd

/-- Modelled from the spec: `derivative()` scales each amplitude by
`h·ω` and shifts each phase by π/2 (`1/2` in units of π); the harmonic
set is unchanged (design §3, DerivativeFit). -/
def Harmonic.derivative (h : Harmonic) : Harmonic :=
  { harmonics := h.harmonics, omega := h.omega,
    phasors := (h.harmonics.zip h.phasors).map
      (fun p => (p.2.1 * (p.1 : ℚ) * h.omega, p.2.2 + 1/2)) }

/-- Modelled from the spec: division of two fits divides amplitudes and
subtracts phases harmonic by harmonic, and fails (the
`HarmonicSetMismatch` condition) when the harmonic sets differ (design
§3 RatioPhasor, §4.2). -/
def Harmonic.div (x y : Harmonic) : Option Harmonic :=
  if x.harmonics = y.harmonics then
    some { harmonics := x.harmonics, omega := x.omega,
           phasors := (x.phasors.zip y.phasors).map
             (fun p => (p.1.1 / p.2.1, p.1.2 - p.2.2)) }
  else none

/-- The bundle of external collaborators `Pipe` uses: the channel-CSV
reader (`daq.pico.CSV(file_name=..., max_sample_freq=1e9,
**channel_mapper).df`), `scipy.signal`, the harmonic least-squares
kernel, and `np.log10`. -/
structure Extern where
  readCSV : PyVal → Trace
  scipy : SciPy
  oracle : FitOracle
  log10 : ℚ → ℚ

/-- Evaluates a list of possibly-failing computations, failing if any
of them fails (monadic sequencing over `Option`). -/
def seqOption {α : Type} : List (Option α) → Option (List α)
  | [] => some []
  | o :: l => o.bind (fun a => (seqOption l).map (fun l2 => a :: l2))

/-- Models `dask.compute(*future_list, scheduler='processes')`: the
worker pool completes the dispatched units of work in an arbitrary
completion order `sched` (a permutation of the task positions), and the
collector hands back the results re-associated with their originating
positions, which is what `dask.compute` guarantees.  All tasks are
awaited; any failing task fails the whole call. -/
def parCompute {α : Type} (sched : List ℕ) (tasks : List (Option α)) : Option (List α) :=
  match seqOption tasks with
  | none => none
  | some vals =>
    let completed := sched.filterMap (fun i => (vals.get? i).map (fun v => (i, v)))
    seqOption ((List.range vals.length).map (fun j => completed.lookup j))

namespace Pipe

/-- Embeds `self.harmonics = [1, harmonic]` from `Pipe.__init__`
(default `harmonic=3`). -/
def harmonicsOf (harmonic : ℕ) : List ℕ := [1, harmonic]

/-- Embeds `filter_cols = ['res_volt', 'sec_volt', 'rec_volt']` from
`Pipe.filter`. -/
def filter_cols : List String := ["res_volt", "sec_volt", "rec_volt"]

/-- Embeds `Pipe.filter` (pipe.py lines 62-68): for each column in
`filter_cols` it computes `b, a = signal.butter(8, 0.01)` and assigns
`signal.filtfilt(b, a, df[col].values, padlen=150)` back to that
column.  The loop is unrolled over the three fixed column names
(`butter` is recomputed per column in the source but is the same pure
value each time, and each column is filtered from its own original
values). -/
def filter (sp : SciPy) (df : Trace) : Trace :=
  { df with
    res_volt := sp.filtfilt (sp.butter 8 (1/100)) df.res_volt 150,
    sec_volt := sp.filtfilt (sp.butter 8 (1/100)) df.sec_volt 150,
    rec_volt := sp.filtfilt (sp.butter 8 (1/100)) df.rec_volt 150 }

/-- State of the caller's dataframe object after `Pipe.filter` returns:
`df.loc[:, col] = ...` assigns the filtered values into the argument
object itself, and `return df` returns that same object, so the
argument object ends up equal to the returned frame. -/
def filterArgAfter (sp : SciPy) (df : Trace) : Trace := filter sp df

/-- Embeds lines 74-75 of `Pipe._process_file`: read the trace table
through the CSV collaborator, then `df = self.filter(df)`. -/
def conditioned (ext : Extern) (file_name : PyVal) : Trace :=
  filter ext.scipy (ext.readCSV file_name)

/-- Embeds lines 80-85 of `Pipe._process_file`: fit the primary current
(`res_volt`), then rebind `h_i_prim` to `h_i_prim.derivative()`,
because the induced voltage is proportional to the derivative of the
drive current. -/
def h_i_prim (ext : Extern) (hs : List ℕ) (fn : PyVal) : Harmonic :=
  (Harmonic.fit ext.oracle hs (conditioned ext fn).t (conditioned ext fn).res_volt).derivative

/-- Embeds lines 87-89 of `Pipe._process_file`: fit the secondary
voltage. -/
def h_v_sec (ext : Extern) (hs : List ℕ) (fn : PyVal) : Harmonic :=
  Harmonic.fit ext.oracle hs (conditioned ext fn).t (conditioned ext fn).sec_volt

/-- Embeds lines 91-93 of `Pipe._process_file`: fit the receiver
voltage. -/
def h_v_rec (ext : Extern) (hs : List ℕ) (fn : PyVal) : Harmonic :=
  Harmonic.fit ext.oracle hs (conditioned ext fn).t (conditioned ext fn).rec_volt

/-- The 8 fixed derived result fields, in the order `Pipe.process`
lists them (pipe.py lines 172-181). -/
def fixedLabels : List Label :=
  [Label.flat "prim_sec_amp", Label.flat "prim_sec_phi",
   Label.flat "prim_rec_amp", Label.flat "prim_rec_phi",
   Label.flat "sec_rec_amp", Label.flat "sec_rec_phi",
   Label.flat "sec_harm_db", Label.flat "rec_harm_db"]

/-- Embeds `np.sum(x ** 2)` applied to an amplitude array. -/
def sumSq (l : List ℚ) : ℚ := (l.map (fun a => a ^ 2)).sum

/-- Python `dict.update`: keys already present are overwritten in
place, new keys are appended in the order of the update argument
(embeds `out.update(rec)` in `Pipe._process_file`). -/
def dictUpdate (d r : Row) : Row :=
  d.map (fun kv =>
    match r.lookup kv.1 with
    | some v => (kv.1, v)
    | none => kv)
  ++ r.filter (fun kv => !((d.map Prod.fst).contains kv.1))

/-- Embeds `Pipe._process_file` (pipe.py lines 70-121): condition the
trace, fit the three channels (with the drive-channel fit replaced by
its derivative), form the three ratio objects, and merge the 8 derived
scalars into the caller-supplied key dictionary via `dict.update`.  The
verbose progress print is a non-contractual side effect and is omitted;
a `HarmonicSetMismatch` failure in a division yields `none`. -/
def processFile (ext : Extern) (hs : List ℕ) (file_name : PyVal) (key_dict : Row) : Option Row :=
  match (h_v_sec ext hs file_name).div (h_i_prim ext hs file_name),
        (h_v_rec ext hs file_name).div (h_i_prim ext hs file_name),
        (h_v_rec ext hs file_name).div (h_v_sec ext hs file_name) with
  | some h_z_prim_sec, some h_z_prim_rec, some h_z_sec_rec =>
    some (dictUpdate key_dict
      [(Label.flat "prim_sec_amp", PyVal.num (h_z_prim_sec.amplitudes.getD 0 0)),
       (Label.flat "prim_sec_phi", PyVal.num (h_z_prim_sec.phases.getD 0 0)),
       (Label.flat "prim_rec_amp", PyVal.num (h_z_prim_rec.amplitudes.getD 0 0)),
       (Label.flat "prim_rec_phi", PyVal.num (h_z_prim_rec.phases.getD 0 0)),
       (Label.flat "sec_rec_amp", PyVal.num (h_z_sec_rec.amplitudes.getD 0 0)),
       (Label.flat "sec_rec_phi", PyVal.num (h_z_sec_rec.phases.getD 0 0)),
       (Label.flat "sec_harm_db", PyVal.num (10 * ext.log10
          (((h_v_sec ext hs file_name).amplitudes.getD 1 0) ^ 2
            / sumSq (h_v_sec ext hs file_name).amplitudes))),
       (Label.flat "rec_harm_db", PyVal.num (10 * ext.log10
          (((h_v_rec ext hs file_name).amplitudes.getD 1 0) ^ 2
            / sumSq (h_v_rec ext hs file_name).amplitudes)))])
  | _, _, _ => none

/-- Embeds `key_names = [c for c in self.df_log.columns if c !=
'file_name']` from `Pipe.process`. -/
def keyLabels (cols : List Label) : List Label :=
  cols.filter (fun c => c != Label.flat "file_name")

/-- Embeds `key_dict = {k: row[k] for k in key_names}` for one row of
the batch descriptor (cells located by column label). -/
def keyDict (cols : List Label) (row : List PyVal) : Row :=
  (keyLabels cols).map (fun k => (k, ((cols.zip row).lookup k).getD PyVal.nan))

/-- Embeds `file_name = row['file_name']`; `none` models the `KeyError`
raised when the batch descriptor has no `file_name` column. -/
def fileNameOf (cols : List Label) (row : List PyVal) : Option PyVal :=
  (cols.zip row).lookup (Label.flat "file_name")

/-- The per-row inputs of the dispatch loop of `Pipe.process` (lines
160-166): each descriptor row yields its file name and key dictionary;
a missing `file_name` column aborts the loop with a `KeyError`. -/
def taskInputs (df : DF) : Option (List (PyVal × Row)) :=
  seqOption (df.rows.map
    (fun row => (fileNameOf df.cols row).map (fun fn => (fn, keyDict df.cols row))))

/-- Embeds `Pipe.process` (pipe.py lines 123-187): build one unit of
work per batch-descriptor row, run them either sequentially
(`n_jobs <= 1`, through the `fake_delayed`/`fake_compute` stand-ins) or
through the worker pool (`n_jobs > 1`, with completion order `sched`),
then assemble the result frame whose columns are the key columns —
taken from the `key_dict` of the last iterated row, a local variable
that stays unbound when the descriptor is empty — followed by the 8
fixed derived columns.  `pd.DataFrame(rec_list, columns=columns)`
projects every record onto that column list (missing keys become
`NaN`) and carries a default range index. -/
def process (ext : Extern) (hs : List ℕ) (n_jobs : ℕ) (sched : List ℕ) (df_log : DF) :
    Except String DF :=
  match taskInputs df_log with
  | none => .error "KeyError: file_name"
  | some pairs =>
    let future_list := pairs.map (fun p => processFile ext hs p.1 p.2)
    match (if n_jobs > 1 then parCompute sched future_list else seqOption future_list) with
    | none => .error "exception in _process_file"
    | some rec_list =>
      match (pairs.map Prod.snd).getLast? with
      | none => .error "UnboundLocalError: key_dict referenced before assignment"
      | some key_dict =>
        let columns := key_dict.map Prod.fst ++ fixedLabels
        .ok { indexNames := [none], colNames := [none],
              index := (List.range rec_list.length).map (fun i => [PyVal.num (i : ℚ)]),
              cols := columns,
              rows := rec_list.map (fun r => columns.map (fun c => (r.lookup c).getD PyVal.nan)) }

end Pipe

/-- Stable insertion of an element into a list, keeping earlier elements
first among equals; building block of the stable sort used to model
pandas' lexicographic `sort_index`. -/
def insertB {α : Type} (le : α → α → Bool) (a : α) : List α → List α
  | [] => [a]
  | b :: l => if le a b then a :: b :: l else b :: insertB le a l

/-- Stable insertion sort (pandas sorts a `MultiIndex` through a stable
lexicographic sort). -/
def sortB {α : Type} (le : α → α → Bool) : List α → List α
  | [] => []
  | a :: l => insertB le a (sortB le l)

/-- Strict lexicographic comparison of character lists by code point,
the order python and pandas use on strings. -/
def charListLt : List Char → List Char → Bool
  | _, [] => false
  | [], _ :: _ => true
  | a :: l, b :: m =>
    if a.toNat < b.toNat then true
    else if b.toNat < a.toNat then false
    else charListLt l m

/-- Strict lexicographic order on strings by code point. -/
def strLt (a b : String) : Bool := charListLt a.data b.data

/-- Non-strict lexicographic order on strings by code point. -/
def strLe (a b : String) : Bool := strLt a b || a == b

/-- Lexicographic order on column labels: pandas sorts `MultiIndex`
columns lexicographically by level values.  Flat labels are ordered
before multi labels, a model choice never exercised on mixed label
sets. -/
def labelLe : Label → Label → Bool
  | Label.flat a, Label.flat b => strLe a b
  | Label.flat _, Label.multi _ _ _ => true
  | Label.multi _ _ _, Label.flat _ => false
  | Label.multi a b c, Label.multi d e f =>
    strLt a d || (a == d && (strLt b e || (b == e && strLe c f)))

/-- Total order on cell values used for row-index sorting: numbers by
value, then strings lexicographically, then `NaN`.  Pandas raises on
mixed-kind sort keys, a case no claim exercises; the model simply
orders across kinds. -/
def pyLe : PyVal → PyVal → Bool
  | PyVal.num a, PyVal.num b => decide (a ≤ b)
  | PyVal.num _, _ => true
  | PyVal.str _, PyVal.num _ => false
  | PyVal.str a, PyVal.str b => strLe a b
  | PyVal.str _, PyVal.nan => true
  | PyVal.nan, PyVal.nan => true
  | PyVal.nan, _ => false

/-- Lexicographic order on row-index tuples. -/
def keyLe : List PyVal → List PyVal → Bool
  | [], _ => true
  | _ :: _, [] => false
  | a :: l, b :: m => if a = b then keyLe l m else pyLe a b

/-- Embeds `df.set_index(keys)` as `Pipe._indexify` calls it: moves the
named key columns (which must exist, else pandas raises a `KeyError`)
out of the column set and into the row index, replacing any previous
index.  `verify_integrity` is left at its pandas default `False`, so no
uniqueness check of the new index is performed. -/
def DF.setIndex (df : DF) (keys : List String) : Except String DF :=
  if ∀ k ∈ keys, Label.flat k ∈ df.cols then
    .ok { indexNames := keys.map some,
          colNames := df.colNames,
          index := df.rows.map (fun r =>
            keys.map (fun k => ((df.cols.zip r).lookup (Label.flat k)).getD PyVal.nan)),
          cols := df.cols.filter (fun c => !(keys.any (fun k => c == Label.flat k))),
          rows := df.rows.map (fun r =>
            ((df.cols.zip r).filter (fun p => !(keys.any (fun k => p.1 == Label.flat k)))).map
              Prod.snd) }
  else .error "KeyError"

/-- Embeds `df.sort_index(axis=1)`: stably sorts the columns (labels
together with the corresponding cell of every row) by label. -/
def DF.sortColumns (df : DF) : DF :=
  let perm := sortB
    (fun i j => labelLe (df.cols.getD i (Label.flat "")) (df.cols.getD j (Label.flat "")))
    (List.range df.cols.length)
  { df with cols := perm.map (fun i => df.cols.getD i (Label.flat "")),
            rows := df.rows.map (fun r => perm.map (fun i => r.getD i PyVal.nan)) }

/-- Embeds `df.sort_index()`: stably sorts the rows (index tuple
together with cell values) by index tuple. -/
def DF.sortRows (df : DF) : DF :=
  let pairs := sortB (fun p q => keyLe p.1 q.1) (df.index.zip df.rows)
  { df with index := pairs.map Prod.fst, rows := pairs.map Prod.snd }

namespace Pipe

/-- Embeds the three label arrays of `Pipe._indexify` (pipe.py lines
190-194), zipped into the 8 `MultiIndex` column labels handed to
`pd.MultiIndex.from_arrays` with level names `driver`, `detector`,
`quantity`. -/
def indexifyLabels : List Label :=
  (["primary", "primary", "primary", "primary", "sec", "sec", "primary", "primary"].zip
    (["secondary", "secondary", "receiver", "receiver", "receiver", "receiver", "secondary",
        "secondary"].zip
      ["amplitude", "phase", "amplitude", "phase", "amplitude", "phase", "db", "db"])).map
    (fun p => Label.multi p.1 p.2.1 p.2.2)

/-- Embeds `Pipe._indexify` (pipe.py lines 189-199): set the
`(pipe, pos)` row index, replace the remaining column labels with the
fixed 3-level labels (pandas raises a length-mismatch `ValueError`
unless exactly 8 columns remain), then sort columns and rows. -/
def indexify (df : DF) : Except String DF :=
  match df.setIndex ["pipe", "pos"] with
  | .error e => .error e
  | .ok d =>
    if d.cols.length = 8 then
      let relabelled : DF :=
        { d with cols := indexifyLabels
                 colNames := [some "driver", some "detector", some "quantity"] }
      .ok (DF.sortRows (DF.sortColumns relabelled))
    else .error "ValueError: Length mismatch"

end Pipe

/-- The 3-level column classification exactly as the specification's
table in §4.5 states it; a spec-side definition kept for comparison
with the source-side `Pipe.indexifyLabels`. -/
def specIndexifyLabels : List Label :=
  [Label.multi "primary" "secondary" "amplitude",
   Label.multi "primary" "secondary" "phase",
   Label.multi "primary" "receiver" "amplitude",
   Label.multi "primary" "receiver" "phase",
   Label.multi "secondary" "receiver" "amplitude",
   Label.multi "secondary" "receiver" "phase",
   Label.multi "primary" "secondary" "db",
   Label.multi "primary" "receiver" "db"]

/-- Concrete stand-in for the external scipy collaborator, used to
evaluate the embedding at concrete inputs: its "filter" halves every
sample, so it visibly changes any nonzero trace. -/
def spModel : SciPy :=
  { butter := fun n wn => ([wn], [(n : ℚ)]),
    filtfilt := fun _ xs _ => xs.map (fun _ => 0) }

/-- Concrete stand-in for the harmonic least-squares kernel, used to
evaluate the embedding at concrete inputs. -/
def oracleModel : FitOracle :=
  { freq := fun _ v => v.headD 1,
    coef := fun _ v h => ((h : ℚ) + v.headD 0, (h : ℚ) - v.headD 0) }

/-- A concrete channel-trace table used to evaluate the embedding. -/
def traceModel : Trace :=
  { t := [0, 1, 2, 3], sig_gen := [5, 5, 5, 5], res_volt := [2, 4, 6, 8],
    sec_volt := [1, 3, 5, 7], rec_volt := [0, 2, 4, 6] }

/-- A concrete bundle of external collaborators used to evaluate the
embedding at concrete inputs. -/
def extModel : Extern :=
  { readCSV := fun _ => traceModel, scipy := spModel, oracle := oracleModel,
    log10 := fun q => q - 1 }

/-- The record `Pipe._process_file` returns, as a total function: the
divisions inside `processFile` always succeed because the three fits
share the harmonic set `hs`, so the `Option` never is `none`. -/
def Pipe.fileRecord (ext : Extern) (hs : List ℕ) (fn : PyVal) (kd : Row) : Row :=
  (Pipe.processFile ext hs fn kd).getD []

/-- The column layout of the flat result table `Pipe.process` emits for
a batch descriptor whose key columns are exactly `pipe` and `pos`. -/
def Pipe.flatColumns : List Label :=
  Label.flat "pipe" :: Label.flat "pos" :: Pipe.fixedLabels

section Lemmas

theorem Harmonic.div_of_eq (x y : Harmonic) (h : x.harmonics = y.harmonics) :
    x.div y = some { harmonics := x.harmonics
                     omega := x.omega
                     phasors := (x.phasors.zip y.phasors).map
                       (fun p => (p.1.1 / p.2.1, p.1.2 - p.2.2)) } := by
  rw [Harmonic.div, if_pos h]

theorem Pipe.processFile_eq_fileRecord (ext : Extern) (hs : List ℕ) (fn : PyVal) (kd : Row) :
    Pipe.processFile ext hs fn kd = some (Pipe.fileRecord ext hs fn kd) := by
  rw [Pipe.fileRecord, Pipe.processFile,
    Harmonic.div_of_eq (Pipe.h_v_sec ext hs fn) (Pipe.h_i_prim ext hs fn) rfl,
    Harmonic.div_of_eq (Pipe.h_v_rec ext hs fn) (Pipe.h_i_prim ext hs fn) rfl,
    Harmonic.div_of_eq (Pipe.h_v_rec ext hs fn) (Pipe.h_v_sec ext hs fn) rfl]
  rfl

theorem seqOption_map_eq {α β : Type} (l : List α) (f : α → Option β) (g : α → β)
    (h : ∀ a ∈ l, f a = some (g a)) : seqOption (l.map f) = some (l.map g) := by
  induction l with
  | nil => rfl
  | cons a l ih =>
    rw [List.map_cons, List.map_cons, seqOption, h a (List.mem_cons_self a l),
      ih (fun b hb => h b (List.mem_cons_of_mem a hb))]
    rfl

theorem seqOption_map_some {α : Type} (l : List α) : seqOption (l.map some) = some l := by
  have h := seqOption_map_eq l some id (fun a _ => rfl)
  simpa using h

theorem lookup_map_pair {α : Type} (l : List ℕ) (f : ℕ → α) (j : ℕ) (h : j ∈ l) :
    (l.map (fun i => (i, f i))).lookup j = some (f j) := by
  induction l with
  | nil => cases h
  | cons i l ih =>
    rcases List.mem_cons.mp h with h | h
    · subst h
      simp [List.lookup]
    · by_cases hij : j = i
      · subst hij; simp [List.lookup]
      · simpa [List.lookup, beq_false_of_ne hij] using ih h

theorem filterMap_get_pairs {α : Type} [Inhabited α] (sched : List ℕ) (vals : List α)
    (h : ∀ i ∈ sched, i < vals.length) :
    sched.filterMap (fun i => (vals.get? i).map (fun v => (i, v))) =
      sched.map (fun i => (i, vals.getD i default)) := by
  induction sched with
  | nil => rfl
  | cons i sched ih =>
    have hi : i < vals.length := h i (List.mem_cons_self i sched)
    have hget : vals.get? i = some (vals.getD i default) := by
      rw [List.get?_eq_get hi, List.getD_eq_get vals default hi]
    rw [List.filterMap_cons, hget]
    show (i, vals.getD i default) :: List.filterMap _ sched = _
    rw [List.map_cons, ih (fun j hj => h j (List.mem_cons_of_mem i hj))]

theorem getD_range_map {α : Type} (l : List α) (d : α) :
    (List.range l.length).map (fun i => l.getD i d) = l := by
  induction l with
  | nil => rfl
  | cons a l ih =>
    simp only [List.length_cons, List.range_succ_eq_map, List.map_cons, List.map_map,
      Function.comp_def, List.getD_cons_zero, List.getD_cons_succ, List.cons.injEq,
      true_and]
    exact ih

theorem parCompute_map_some {α : Type} [Inhabited α] (sched : List ℕ) (l : List α)
    (hperm : sched.Perm (List.range l.length)) :
    parCompute sched (l.map some) = some l := by
  have hmem : ∀ i, i ∈ sched ↔ i < l.length := by
    intro i
    rw [hperm.mem_iff, List.mem_range]
  rw [parCompute, seqOption_map_some]
  simp only
  rw [filterMap_get_pairs sched l (fun i hi => (hmem i).mp hi)]
  have hlook : ∀ j ∈ List.range l.length,
      (sched.map (fun i => (i, l.getD i default))).lookup j = some (l.getD j default) := by
    intro j hj
    exact lookup_map_pair sched (fun i => l.getD i default) j
      ((hmem j).mpr (List.mem_range.mp hj))
  rw [seqOption_map_eq (List.range l.length) _ (fun j => l.getD j default) hlook,
    getD_range_map]

end Lemmas

section MoreLemmas

theorem lookup_zip_some (cols : List Label) (row : List PyVal) (c : Label)
    (hc : c ∈ cols) (hlen : row.length = cols.length) :
    ∃ v, (cols.zip row).lookup c = some v := by
  induction cols generalizing row with
  | nil => cases hc
  | cons c0 cols ih =>
    cases row with
    | nil => simp at hlen
    | cons v0 row =>
      by_cases hcc : c = c0
      · subst hcc
        exact ⟨v0, by simp [List.lookup]⟩
      · have hmem : c ∈ cols := by
          rcases List.mem_cons.mp hc with h | h
          · exact absurd h hcc
          · exact h
        have hlen2 : row.length = cols.length := by simpa using hlen
        obtain ⟨v, hv⟩ := ih row hmem hlen2
        exact ⟨v, by simpa [List.lookup, beq_false_of_ne hcc] using hv⟩

theorem lookup_append_left (l1 l2 : Row) (k : Label) (x : PyVal)
    (h : l1.lookup k = some x) : (l1 ++ l2).lookup k = some x := by
  induction l1 with
  | nil => simp [List.lookup] at h
  | cons kv l1 ih =>
    rw [List.cons_append, List.lookup]
    rw [List.lookup] at h
    cases hk : (k == kv.1) with
    | true => rw [hk] at h; exact h
    | false => rw [hk] at h; exact ih h

theorem lookup_append_right (l1 l2 : Row) (k : Label) (h : k ∉ l1.map Prod.fst) :
    (l1 ++ l2).lookup k = l2.lookup k := by
  induction l1 with
  | nil => rfl
  | cons kv l1 ih =>
    have hk : k ≠ kv.1 := fun he => h (by simp [he])
    have hm : k ∉ l1.map Prod.fst := fun hm => h (by simp [hm])
    rw [List.cons_append, List.lookup, beq_false_of_ne hk]
    exact ih hm

theorem lookup_filter_of (r : Row) (k : Label) (p : Label × PyVal → Bool)
    (hp : ∀ kv ∈ r, kv.1 = k → p kv = true) :
    (r.filter p).lookup k = r.lookup k := by
  induction r with
  | nil => rfl
  | cons kv r ih =>
    have ihr := ih (fun kv2 h2 => hp kv2 (List.mem_cons_of_mem kv h2))
    by_cases hk : kv.1 = k
    · have hpkv : p kv = true := hp kv (List.mem_cons_self kv r) hk
      rw [List.filter_cons_of_pos hpkv]
      simp [List.lookup, hk.symm]
    · have hne : k ≠ kv.1 := fun he => hk he.symm
      by_cases hpkv : p kv = true
      · rw [List.filter_cons_of_pos hpkv, List.lookup, beq_false_of_ne hne, ihr,
          List.lookup, beq_false_of_ne hne]
      · rw [List.filter_cons_of_neg (by simpa using hpkv), ihr, List.lookup,
          beq_false_of_ne hne]

theorem lookup_of_mem_fst (d : Row) (k : Label) (h : k ∈ d.map Prod.fst) :
    ∃ w, d.lookup k = some w := by
  induction d with
  | nil => simp at h
  | cons kv d ih =>
    rw [List.map_cons] at h
    by_cases hk : k = kv.1
    · exact ⟨kv.2, by simp [List.lookup, hk]⟩
    · have hm : k ∈ d.map Prod.fst := by
        rcases List.mem_cons.mp h with h1 | h1
        · exact absurd h1 hk
        · exact h1
      obtain ⟨w, hw⟩ := ih hm
      exact ⟨w, by rw [List.lookup, beq_false_of_ne hk]; exact hw⟩

theorem lookup_map_update (d r : Row) (k : Label) :
    (d.map (fun kv =>
      match r.lookup kv.1 with
      | some v => (kv.1, v)
      | none => kv)).lookup k =
      (d.lookup k).map (fun w =>
        match r.lookup k with
        | some v => v
        | none => w) := by
  induction d with
  | nil => rfl
  | cons kv d ih =>
    by_cases hk : k = kv.1
    · subst hk
      cases hrk : r.lookup kv.1 <;> simp [List.lookup, hrk]
    · cases hrk : r.lookup kv.1 <;>
        simp [List.lookup, hrk, beq_false_of_ne hk, ih]

theorem map_update_fst (d r : Row) :
    (d.map (fun kv =>
      match r.lookup kv.1 with
      | some v => (kv.1, v)
      | none => kv)).map Prod.fst = d.map Prod.fst := by
  rw [List.map_map]
  apply List.map_congr_left
  intro kv _
  show (match r.lookup kv.1 with
    | some v => (kv.1, v)
    | none => kv).1 = kv.1
  cases r.lookup kv.1 <;> rfl

theorem Pipe.dictUpdate_lookup_of_some (d r : Row) (k : Label) (v : PyVal)
    (h : r.lookup k = some v) : (Pipe.dictUpdate d r).lookup k = some v := by
  rw [Pipe.dictUpdate]
  by_cases hd : k ∈ d.map Prod.fst
  · obtain ⟨w, hw⟩ := lookup_of_mem_fst d k hd
    apply lookup_append_left
    rw [lookup_map_update, hw, h]
    rfl
  · rw [lookup_append_right _ _ _ (by rw [map_update_fst]; exact hd)]
    rw [lookup_filter_of r k _ (fun kv _ hkv => by rw [hkv]; simp [hd]), h]

end MoreLemmas

/-- The ratio object `h_z_prim_sec = h_v_sec / h_i_prim` of
`Pipe._process_file` (line 96), in total form: the division succeeds
because both fits carry the harmonic set `hs`. -/
def Pipe.h_z_prim_sec (ext : Extern) (hs : List ℕ) (fn : PyVal) : Harmonic :=
  ((Pipe.h_v_sec ext hs fn).div (Pipe.h_i_prim ext hs fn)).getD default

/-- The ratio object `h_z_prim_rec = h_v_rec / h_i_prim` of
`Pipe._process_file` (line 97), in total form. -/
def Pipe.h_z_prim_rec (ext : Extern) (hs : List ℕ) (fn : PyVal) : Harmonic :=
  ((Pipe.h_v_rec ext hs fn).div (Pipe.h_i_prim ext hs fn)).getD default

/-- The ratio object `h_z_sec_rec = h_v_rec / h_v_sec` of
`Pipe._process_file` (line 98), in total form. -/
def Pipe.h_z_sec_rec (ext : Extern) (hs : List ℕ) (fn : PyVal) : Harmonic :=
  ((Pipe.h_v_rec ext hs fn).div (Pipe.h_v_sec ext hs fn)).getD default

section RecordLemmas

theorem Pipe.div_prim_sec_eq (ext : Extern) (hs : List ℕ) (fn : PyVal) :
    (Pipe.h_v_sec ext hs fn).div (Pipe.h_i_prim ext hs fn) =
      some (Pipe.h_z_prim_sec ext hs fn) := by
  rw [Pipe.h_z_prim_sec,
    Harmonic.div_of_eq (Pipe.h_v_sec ext hs fn) (Pipe.h_i_prim ext hs fn) rfl]
  rfl

theorem Pipe.div_prim_rec_eq (ext : Extern) (hs : List ℕ) (fn : PyVal) :
    (Pipe.h_v_rec ext hs fn).div (Pipe.h_i_prim ext hs fn) =
      some (Pipe.h_z_prim_rec ext hs fn) := by
  rw [Pipe.h_z_prim_rec,
    Harmonic.div_of_eq (Pipe.h_v_rec ext hs fn) (Pipe.h_i_prim ext hs fn) rfl]
  rfl

theorem Pipe.div_sec_rec_eq (ext : Extern) (hs : List ℕ) (fn : PyVal) :
    (Pipe.h_v_rec ext hs fn).div (Pipe.h_v_sec ext hs fn) =
      some (Pipe.h_z_sec_rec ext hs fn) := by
  rw [Pipe.h_z_sec_rec,
    Harmonic.div_of_eq (Pipe.h_v_rec ext hs fn) (Pipe.h_v_sec ext hs fn) rfl]
  rfl

theorem Pipe.fileRecord_eq (ext : Extern) (hs : List ℕ) (fn : PyVal) (kd : Row) :
    Pipe.fileRecord ext hs fn kd = Pipe.dictUpdate kd
      [(Label.flat "prim_sec_amp",
          PyVal.num ((Pipe.h_z_prim_sec ext hs fn).amplitudes.getD 0 0)),
       (Label.flat "prim_sec_phi",
          PyVal.num ((Pipe.h_z_prim_sec ext hs fn).phases.getD 0 0)),
       (Label.flat "prim_rec_amp",
          PyVal.num ((Pipe.h_z_prim_rec ext hs fn).amplitudes.getD 0 0)),
       (Label.flat "prim_rec_phi",
          PyVal.num ((Pipe.h_z_prim_rec ext hs fn).phases.getD 0 0)),
       (Label.flat "sec_rec_amp",
          PyVal.num ((Pipe.h_z_sec_rec ext hs fn).amplitudes.getD 0 0)),
       (Label.flat "sec_rec_phi",
          PyVal.num ((Pipe.h_z_sec_rec ext hs fn).phases.getD 0 0)),
       (Label.flat "sec_harm_db", PyVal.num (10 * ext.log10
          (((Pipe.h_v_sec ext hs fn).amplitudes.getD 1 0) ^ 2
            / Pipe.sumSq (Pipe.h_v_sec ext hs fn).amplitudes))),
       (Label.flat "rec_harm_db", PyVal.num (10 * ext.log10
          (((Pipe.h_v_rec ext hs fn).amplitudes.getD 1 0) ^ 2
            / Pipe.sumSq (Pipe.h_v_rec ext hs fn).amplitudes)))] := by
  rw [Pipe.fileRecord, Pipe.processFile, Pipe.div_prim_sec_eq, Pipe.div_prim_rec_eq,
    Pipe.div_sec_rec_eq]
  rfl

theorem Pipe.dictUpdate_fst (d r : Row) (hdisj : ∀ kv ∈ r, kv.1 ∉ d.map Prod.fst) :
    (Pipe.dictUpdate d r).map Prod.fst = d.map Prod.fst ++ r.map Prod.fst := by
  rw [Pipe.dictUpdate, List.map_append, map_update_fst,
    List.filter_eq_self.mpr (fun kv hkv => by simp [hdisj kv hkv])]

theorem Pipe.keyDict_fst (cols : List Label) (row : List PyVal) :
    (Pipe.keyDict cols row).map Prod.fst = Pipe.keyLabels cols := by
  rw [Pipe.keyDict, List.map_map]
  have : (Prod.fst ∘ fun k =>
      ((k : Label), ((cols.zip row).lookup k).getD PyVal.nan)) = id := by
    funext k
    rfl
  rw [this, List.map_id]

theorem Pipe.taskInputs_eq (df : DF) (hfn : Label.flat "file_name" ∈ df.cols)
    (hrect : ∀ r ∈ df.rows, r.length = df.cols.length) :
    Pipe.taskInputs df = some (df.rows.map (fun row =>
      ((Pipe.fileNameOf df.cols row).getD PyVal.nan, Pipe.keyDict df.cols row))) := by
  rw [Pipe.taskInputs]
  apply seqOption_map_eq
  intro row hrow
  obtain ⟨v, hv⟩ :=
    lookup_zip_some df.cols row (Label.flat "file_name") hfn (hrect row hrow)
  have hv2 : Pipe.fileNameOf df.cols row = some v := by
    rw [Pipe.fileNameOf]; exact hv
  rw [hv2]
  rfl

theorem parCompute_nil {α : Type} (sched : List ℕ) :
    parCompute sched ([] : List (Option α)) = some [] := rfl

end RecordLemmas

/-- C4 counterexample: the signal-conditioning step is not pure — after
the call, the caller's trace object has changed (here its columns were
overwritten in place by the filtered values). -/
theorem Pipe.filter_mutation_cx :
    Pipe.filterArgAfter spModel traceModel ≠ traceModel := by decide

/-- C4 amended: `Pipe.filter` overwrites the three filtered columns of
the caller's table in place and returns that same object: the state of
the argument object after the call equals the returned frame, with
`res_volt`, `sec_volt` and `rec_volt` replaced by their filtered values
and `t`, `sig_gen` untouched. -/
theorem Pipe.filter_inplace (sp : SciPy) (df : Trace) :
    Pipe.filterArgAfter sp df = Pipe.filter sp df ∧
    Pipe.filterArgAfter sp df =
      { t := df.t
        sig_gen := df.sig_gen
        res_volt := sp.filtfilt (sp.butter 8 (1/100)) df.res_volt 150
        sec_volt := sp.filtfilt (sp.butter 8 (1/100)) df.sec_volt 150
        rec_volt := sp.filtfilt (sp.butter 8 (1/100)) df.rec_volt 150 } :=
  ⟨rfl, rfl⟩

/-- A second concrete trace, drive channel nonzero, used to exhibit that
the drive channel is filtered. -/
def traceDrive : Trace :=
  { t := [0], sig_gen := [1], res_volt := [4], sec_volt := [6], rec_volt := [8] }

/-- C5 counterexample: the drive/reference channel `res_volt` is *not*
left unfiltered — `Pipe.filter` changes it. -/
theorem Pipe.filter_drive_cx :
    (Pipe.filter spModel traceDrive).res_volt ≠ traceDrive.res_volt := by decide

/-- C5 amended: low-pass filtering is applied to exactly the three
channels `res_volt` (the drive/primary-current channel), `sec_volt` and
`rec_volt`; the time column and the `sig_gen` reference column are left
untouched. -/
theorem Pipe.filter_all_three (sp : SciPy) (df : Trace) :
    (Pipe.filter sp df).res_volt = sp.filtfilt (sp.butter 8 (1/100)) df.res_volt 150 ∧
    (Pipe.filter sp df).sec_volt = sp.filtfilt (sp.butter 8 (1/100)) df.sec_volt 150 ∧
    (Pipe.filter sp df).rec_volt = sp.filtfilt (sp.butter 8 (1/100)) df.rec_volt 150 ∧
    (Pipe.filter sp df).t = df.t ∧ (Pipe.filter sp df).sig_gen = df.sig_gen :=
  ⟨rfl, rfl, rfl, rfl, rfl⟩

/-- C6: every channel trace that `Pipe.filter` touches is run through
`signal.filtfilt` with the coefficients of an order-8 low-pass
Butterworth filter cut off at `0.01` of the Nyquist frequency
(forward-and-backward, hence zero net phase shift) and an edge pad of
150 samples. -/
theorem Pipe.filter_butter_params (sp : SciPy) (df : Trace) (c : String)
    (hc : c ∈ Pipe.filter_cols) :
    (Pipe.filter sp df).col c = sp.filtfilt (sp.butter 8 (1/100)) (df.col c) 150 := by
  rw [Pipe.filter_cols] at hc
  rcases List.mem_cons.mp hc with h | hc2
  · subst h; rfl
  rcases List.mem_cons.mp hc2 with h | hc3
  · subst h; rfl
  rcases List.mem_cons.mp hc3 with h | hc4
  · subst h; rfl
  · cases hc4

/-- C6 witness: the parameter check evaluated on the secondary channel
of a concrete trace. -/
theorem Pipe.filter_butter_params_witness :
    "sec_volt" ∈ Pipe.filter_cols ∧
    (Pipe.filter spModel traceModel).col "sec_volt" =
      spModel.filtfilt (spModel.butter 8 (1/100)) (traceModel.col "sec_volt") 150 :=
  ⟨by decide, Pipe.filter_butter_params spModel traceModel "sec_volt" (by decide)⟩

/-- C2: for every input file, after conditioning and fitting,
`Pipe._process_file` forms exactly three ratio phasors — the
secondary-voltage fit over the *derivative* of the drive-channel fit
(`h_i_prim` is rebound to its derivative before any division), the
receiver-voltage fit over that same derivative, and the receiver fit
over the secondary fit — and the returned record carries precisely the
caller-supplied key fields followed by the 8 fixed derived fields. -/
theorem Pipe.processFile_ratio_fields (ext : Extern) (hs : List ℕ) (fn : PyVal) (kd : Row)
    (hdisj : ∀ l ∈ Pipe.fixedLabels, l ∉ kd.map Prod.fst) :
    ∃ r z_ps z_pr z_sr,
      Pipe.processFile ext hs fn kd = some r ∧
      (Pipe.h_v_sec ext hs fn).div (Pipe.h_i_prim ext hs fn) = some z_ps ∧
      (Pipe.h_v_rec ext hs fn).div (Pipe.h_i_prim ext hs fn) = some z_pr ∧
      (Pipe.h_v_rec ext hs fn).div (Pipe.h_v_sec ext hs fn) = some z_sr ∧
      r.map Prod.fst = kd.map Prod.fst ++ Pipe.fixedLabels ∧
      r.lookup (Label.flat "prim_sec_amp") = some (PyVal.num (z_ps.amplitudes.getD 0 0)) ∧
      r.lookup (Label.flat "prim_sec_phi") = some (PyVal.num (z_ps.phases.getD 0 0)) ∧
      r.lookup (Label.flat "prim_rec_amp") = some (PyVal.num (z_pr.amplitudes.getD 0 0)) ∧
      r.lookup (Label.flat "prim_rec_phi") = some (PyVal.num (z_pr.phases.getD 0 0)) ∧
      r.lookup (Label.flat "sec_rec_amp") = some (PyVal.num (z_sr.amplitudes.getD 0 0)) ∧
      r.lookup (Label.flat "sec_rec_phi") = some (PyVal.num (z_sr.phases.getD 0 0)) := by
  refine ⟨Pipe.fileRecord ext hs fn kd, Pipe.h_z_prim_sec ext hs fn,
    Pipe.h_z_prim_rec ext hs fn, Pipe.h_z_sec_rec ext hs fn,
    Pipe.processFile_eq_fileRecord ext hs fn kd,
    Pipe.div_prim_sec_eq ext hs fn, Pipe.div_prim_rec_eq ext hs fn,
    Pipe.div_sec_rec_eq ext hs fn, ?keys, ?l1, ?l2, ?l3, ?l4, ?l5, ?l6⟩
  case keys =>
    rw [Pipe.fileRecord_eq, Pipe.dictUpdate_fst]
    · rfl
    · intro kv hkv
      exact hdisj kv.1 (List.mem_map_of_mem Prod.fst hkv)
  all_goals rw [Pipe.fileRecord_eq]
  case l1 => exact Pipe.dictUpdate_lookup_of_some _ _ _ _ rfl
  case l2 => exact Pipe.dictUpdate_lookup_of_some _ _ _ _ rfl
  case l3 => exact Pipe.dictUpdate_lookup_of_some _ _ _ _ rfl
  case l4 => exact Pipe.dictUpdate_lookup_of_some _ _ _ _ rfl
  case l5 => exact Pipe.dictUpdate_lookup_of_some _ _ _ _ rfl
  case l6 => exact Pipe.dictUpdate_lookup_of_some _ _ _ _ rfl

/-- A concrete key dictionary for one batch row, used by witnesses. -/
def kdModel : Row := [(Label.flat "pipe", PyVal.str "P1"), (Label.flat "pos", PyVal.num 1)]

/-- C2 witness: the record-shape theorem applied to a concrete file and
key dictionary, with the disjointness hypothesis checked by
computation. -/
theorem Pipe.processFile_ratio_fields_witness :
    ∃ r z_ps z_pr z_sr,
      Pipe.processFile extModel [1, 3] (PyVal.str "f.csv") kdModel = some r ∧
      (Pipe.h_v_sec extModel [1, 3] (PyVal.str "f.csv")).div
        (Pipe.h_i_prim extModel [1, 3] (PyVal.str "f.csv")) = some z_ps ∧
      (Pipe.h_v_rec extModel [1, 3] (PyVal.str "f.csv")).div
        (Pipe.h_i_prim extModel [1, 3] (PyVal.str "f.csv")) = some z_pr ∧
      (Pipe.h_v_rec extModel [1, 3] (PyVal.str "f.csv")).div
        (Pipe.h_v_sec extModel [1, 3] (PyVal.str "f.csv")) = some z_sr ∧
      r.map Prod.fst = kdModel.map Prod.fst ++ Pipe.fixedLabels ∧
      r.lookup (Label.flat "prim_sec_amp") = some (PyVal.num (z_ps.amplitudes.getD 0 0)) ∧
      r.lookup (Label.flat "prim_sec_phi") = some (PyVal.num (z_ps.phases.getD 0 0)) ∧
      r.lookup (Label.flat "prim_rec_amp") = some (PyVal.num (z_pr.amplitudes.getD 0 0)) ∧
      r.lookup (Label.flat "prim_rec_phi") = some (PyVal.num (z_pr.phases.getD 0 0)) ∧
      r.lookup (Label.flat "sec_rec_amp") = some (PyVal.num (z_sr.amplitudes.getD 0 0)) ∧
      r.lookup (Label.flat "sec_rec_phi") = some (PyVal.num (z_sr.phases.getD 0 0)) :=
  Pipe.processFile_ratio_fields extModel [1, 3] (PyVal.str "f.csv") kdModel (by decide)

/-- C3: the two harmonic-distortion fields of the result record equal
`10 * log10` of the squared amplitude at the non-fundamental harmonic
(index 1 of the fitted harmonic list `[1, harmonic]`) divided by the
sum of squared amplitudes over all fitted harmonics, taken from the
secondary-channel fit `h_v_sec` and the receiver-channel fit `h_v_rec`
themselves — not from the derivative object or any ratio object. -/
theorem Pipe.processFile_harm_db (ext : Extern) (hs : List ℕ) (fn : PyVal) (kd : Row) :
    ∃ r, Pipe.processFile ext hs fn kd = some r ∧
      r.lookup (Label.flat "sec_harm_db") = some (PyVal.num (10 * ext.log10
        (((Pipe.h_v_sec ext hs fn).amplitudes.getD 1 0) ^ 2
          / Pipe.sumSq (Pipe.h_v_sec ext hs fn).amplitudes))) ∧
      r.lookup (Label.flat "rec_harm_db") = some (PyVal.num (10 * ext.log10
        (((Pipe.h_v_rec ext hs fn).amplitudes.getD 1 0) ^ 2
          / Pipe.sumSq (Pipe.h_v_rec ext hs fn).amplitudes))) := by
  refine ⟨Pipe.fileRecord ext hs fn kd, Pipe.processFile_eq_fileRecord ext hs fn kd, ?_, ?_⟩
  · rw [Pipe.fileRecord_eq]
    exact Pipe.dictUpdate_lookup_of_some _ _ _ _ rfl
  · rw [Pipe.fileRecord_eq]
    exact Pipe.dictUpdate_lookup_of_some _ _ _ _ rfl

/-- C10: on an empty batch descriptor `Pipe.process` does not build an
empty result table: the output column list reads the loop variable
`key_dict`, which was never assigned, so the call fails with an
unbound-local error, in both execution modes. -/
theorem Pipe.process_empty_unbound (ext : Extern) (hs : List ℕ) (n_jobs : ℕ)
    (sched : List ℕ) (inm cnm : List (Option String)) (idx : List (List PyVal))
    (cols : List Label) :
    Pipe.process ext hs n_jobs sched
      { indexNames := inm, colNames := cnm, index := idx, cols := cols, rows := [] } =
      Except.error "UnboundLocalError: key_dict referenced before assignment" := by
  by_cases hn : n_jobs > 1 <;>
    simp [Pipe.process, Pipe.taskInputs, seqOption, parCompute_nil, hn]

/-- C1: for every batch descriptor and in both execution modes
(sequential `n_jobs <= 1` and pooled `n_jobs > 1`), `Pipe.process`
returns a table with exactly one row per descriptor row, in descriptor
order: the result is the map of the per-file record over the descriptor
rows, and it does not depend on the worker-pool completion order
`sched` (any permutation of the task positions) nor on `n_jobs`.  The
descriptor must be non-empty (the empty case raises instead, see the
companion result on empty descriptors), carry a `file_name` column, and
be rectangular. -/
theorem Pipe.process_row_order (ext : Extern) (hs : List ℕ) (n_jobs : ℕ) (sched : List ℕ)
    (df : DF) (hfn : Label.flat "file_name" ∈ df.cols)
    (hrect : ∀ r ∈ df.rows, r.length = df.cols.length)
    (hne : df.rows ≠ [])
    (hperm : sched.Perm (List.range df.rows.length)) :
    Pipe.process ext hs n_jobs sched df = Except.ok
      { indexNames := [none], colNames := [none],
        index := (List.range df.rows.length).map (fun i => [PyVal.num (i : ℚ)]),
        cols := Pipe.keyLabels df.cols ++ Pipe.fixedLabels,
        rows := df.rows.map (fun row =>
          (Pipe.keyLabels df.cols ++ Pipe.fixedLabels).map (fun c =>
            ((Pipe.fileRecord ext hs ((Pipe.fileNameOf df.cols row).getD PyVal.nan)
                (Pipe.keyDict df.cols row)).lookup c).getD PyVal.nan)) } := by
  have hti := Pipe.taskInputs_eq df hfn hrect
  have hfut : (df.rows.map (fun row =>
        ((Pipe.fileNameOf df.cols row).getD PyVal.nan, Pipe.keyDict df.cols row))).map
      (fun p : PyVal × Row => Pipe.processFile ext hs p.1 p.2) =
      ((df.rows.map (fun row =>
        ((Pipe.fileNameOf df.cols row).getD PyVal.nan, Pipe.keyDict df.cols row))).map
        (fun p : PyVal × Row => Pipe.fileRecord ext hs p.1 p.2)).map some := by
    rw [List.map_map, List.map_map, List.map_map]
    exact List.map_congr_left (fun row _ => Pipe.processFile_eq_fileRecord ext hs _ _)
  have hcompute : (if n_jobs > 1 then
        parCompute sched ((df.rows.map (fun row =>
          ((Pipe.fileNameOf df.cols row).getD PyVal.nan, Pipe.keyDict df.cols row))).map
            (fun p : PyVal × Row => Pipe.processFile ext hs p.1 p.2))
      else seqOption ((df.rows.map (fun row =>
          ((Pipe.fileNameOf df.cols row).getD PyVal.nan, Pipe.keyDict df.cols row))).map
            (fun p : PyVal × Row => Pipe.processFile ext hs p.1 p.2)))
      = some ((df.rows.map (fun row =>
          ((Pipe.fileNameOf df.cols row).getD PyVal.nan, Pipe.keyDict df.cols row))).map
            (fun p : PyVal × Row => Pipe.fileRecord ext hs p.1 p.2)) := by
    rw [hfut]
    by_cases hn : n_jobs > 1
    · rw [if_pos hn]
      exact parCompute_map_some sched _ (by simpa using hperm)
    · rw [if_neg hn]
      exact seqOption_map_some _
  obtain ⟨r0, hr0⟩ := Option.isSome_iff_exists.mp (List.getLast?_isSome.mpr hne)
  have hlast2 : ((df.rows.map (fun row =>
      ((Pipe.fileNameOf df.cols row).getD PyVal.nan, Pipe.keyDict df.cols row))).map
        Prod.snd).getLast? = some (Pipe.keyDict df.cols r0) := by
    rw [List.map_map, List.getLast?_map, hr0]
    rfl
  simp only [Pipe.process, hti, hcompute, hlast2]
  rw [Pipe.keyDict_fst]
  simp only [List.map_map, List.length_map]
  rfl

/-- A concrete two-row batch descriptor used by the ordering witness. -/
def dfLogModel : DF :=
  { cols := [Label.flat "pipe", Label.flat "pos", Label.flat "file_name"],
    rows := [[PyVal.str "P1", PyVal.num 1, PyVal.str "a.csv"],
             [PyVal.str "P1", PyVal.num 2, PyVal.str "b.csv"]] }

/-- C1 witness: the ordering theorem applied to a concrete two-row
descriptor in pooled mode with the completion order reversed
(`sched = [1, 0]`), all hypotheses checked by computation. -/
theorem Pipe.process_row_order_witness :
    Pipe.process extModel [1, 3] 2 [1, 0] dfLogModel = Except.ok
      { indexNames := [none], colNames := [none],
        index := (List.range dfLogModel.rows.length).map (fun i => [PyVal.num (i : ℚ)]),
        cols := Pipe.keyLabels dfLogModel.cols ++ Pipe.fixedLabels,
        rows := dfLogModel.rows.map (fun row =>
          (Pipe.keyLabels dfLogModel.cols ++ Pipe.fixedLabels).map (fun c =>
            ((Pipe.fileRecord extModel [1, 3]
                ((Pipe.fileNameOf dfLogModel.cols row).getD PyVal.nan)
                (Pipe.keyDict dfLogModel.cols row)).lookup c).getD PyVal.nan)) } :=
  Pipe.process_row_order extModel [1, 3] 2 [1, 0] dfLogModel (by decide) (by decide)
    (by decide) (by decide)

section SortLemmas

theorem insertB_length {α : Type} (le : α → α → Bool) (a : α) (l : List α) :
    (insertB le a l).length = l.length + 1 := by
  induction l with
  | nil => rfl
  | cons b l ih =>
    rw [insertB]
    split
    · rfl
    · rw [List.length_cons, ih, List.length_cons]

theorem sortB_length {α : Type} (le : α → α → Bool) (l : List α) :
    (sortB le l).length = l.length := by
  induction l with
  | nil => rfl
  | cons a l ih =>
    rw [sortB, insertB_length, ih, List.length_cons]

end SortLemmas

/-- A flat result table whose two rows share the `(pipe, pos)` key
`("P1", 1)`, with conflicting derived values. -/
def dfDup : DF :=
  { cols := Pipe.flatColumns,
    rows := [[PyVal.str "P1", PyVal.num 1, PyVal.num 1, PyVal.num 2, PyVal.num 3,
              PyVal.num 4, PyVal.num 5, PyVal.num 6, PyVal.num 7, PyVal.num 8],
             [PyVal.str "P1", PyVal.num 1, PyVal.num 9, PyVal.num 10, PyVal.num 11,
              PyVal.num 12, PyVal.num 13, PyVal.num 14, PyVal.num 15, PyVal.num 16]] }

/-- C7 counterexample: on a flat table whose two rows share the same
`(pipe, pos)` combination, the reshape step does *not* fail — it
returns a hierarchical table (with a duplicated index entry), because
`set_index` is called without `verify_integrity`. -/
theorem Pipe.indexify_duplicate_cx : (Pipe.indexify dfDup).isOk = true := by decide

/-- C7 amended: the reshape step performs no uniqueness check at all:
for any row set over the canonical flat columns — duplicate
`(pipe, pos)` keys included — it succeeds and keeps one output row per
input row. -/
theorem Pipe.indexify_no_duplicate_check (idx : List (List PyVal))
    (rows : List (List PyVal)) :
    ∃ t, Pipe.indexify { indexNames := [none], colNames := [none], index := idx,
                         cols := Pipe.flatColumns, rows := rows } = Except.ok t ∧
      t.rows.length = rows.length := by
  refine ⟨_, rfl, ?_⟩
  simp [DF.sortRows, DF.sortColumns, sortB_length, List.length_zip, List.length_map]

/-- A flat result table with two distinct `(pipe, pos)` keys, in
non-sorted input order. -/
def df8 : DF :=
  { cols := Pipe.flatColumns,
    rows := [[PyVal.str "P2", PyVal.num 2, PyVal.num 1, PyVal.num 2, PyVal.num 3,
              PyVal.num 4, PyVal.num 5, PyVal.num 6, PyVal.num 7, PyVal.num 8],
             [PyVal.str "P1", PyVal.num 1, PyVal.num 11, PyVal.num 12, PyVal.num 13,
              PyVal.num 14, PyVal.num 15, PyVal.num 16, PyVal.num 17, PyVal.num 18]] }

/-- The hierarchical table `Pipe._indexify` produces from `df8`: rows
sorted by `(pipe, pos)`, columns sorted by the 3-level labels. -/
def t8 : DF :=
  { indexNames := [some "pipe", some "pos"],
    colNames := [some "driver", some "detector", some "quantity"],
    index := [[PyVal.str "P1", PyVal.num 1], [PyVal.str "P2", PyVal.num 2]],
    cols := [Label.multi "primary" "receiver" "amplitude",
             Label.multi "primary" "receiver" "phase",
             Label.multi "primary" "secondary" "amplitude",
             Label.multi "primary" "secondary" "db",
             Label.multi "primary" "secondary" "db",
             Label.multi "primary" "secondary" "phase",
             Label.multi "sec" "receiver" "amplitude",
             Label.multi "sec" "receiver" "phase"],
    rows := [[PyVal.num 13, PyVal.num 14, PyVal.num 11, PyVal.num 17, PyVal.num 18,
              PyVal.num 12, PyVal.num 15, PyVal.num 16],
             [PyVal.num 3, PyVal.num 4, PyVal.num 1, PyVal.num 7, PyVal.num 8,
              PyVal.num 2, PyVal.num 5, PyVal.num 6]] }

instance : DecidableEq (Except String DF)
  | .ok a, .ok b =>
    if h : a = b then isTrue (by rw [h]) else isFalse (fun hc => h (by injection hc))
  | .error a, .error b =>
    if h : a = b then isTrue (by rw [h]) else isFalse (fun hc => h (by injection hc))
  | .ok _, .error _ => isFalse (fun hc => Except.noConfusion hc)
  | .error _, .ok _ => isFalse (fun hc => Except.noConfusion hc)

/-- C8 counterexample: reshaping twice is not the same as reshaping
once — the second application fails, because `pipe` and `pos` are no
longer columns of the reshaped table. -/
theorem Pipe.indexify_twice_cx :
    (Pipe.indexify df8).bind Pipe.indexify ≠ Pipe.indexify df8 := by decide

/-- C8 amended: the reshape step is never idempotent — applied to any
table it has itself produced, it fails with a `KeyError`, since the
`(pipe, pos)` key columns were consumed into the row index by the first
application. -/
theorem Pipe.indexify_not_idempotent (df t : DF) (h : Pipe.indexify df = Except.ok t) :
    Pipe.indexify t = Except.error "KeyError" := by
  rw [Pipe.indexify] at h
  split at h
  · exact Except.noConfusion h
  · split at h
    · injection h with h2
      have hc : t.cols = [Label.multi "primary" "receiver" "amplitude",
          Label.multi "primary" "receiver" "phase",
          Label.multi "primary" "secondary" "amplitude",
          Label.multi "primary" "secondary" "db",
          Label.multi "primary" "secondary" "db",
          Label.multi "primary" "secondary" "phase",
          Label.multi "sec" "receiver" "amplitude",
          Label.multi "sec" "receiver" "phase"] := by
        rw [← h2]
        rfl
      have hnot : ¬ (∀ k ∈ ["pipe", "pos"], Label.flat k ∈ t.cols) := by
        rw [hc]
        decide
      rw [Pipe.indexify, DF.setIndex, if_neg hnot]
    · exact Except.noConfusion h

/-- C8 witness: the non-idempotence theorem applied to the concrete
table `df8` and its computed reshape `t8`. -/
theorem Pipe.indexify_not_idempotent_witness :
    Pipe.indexify t8 = Except.error "KeyError" :=
  Pipe.indexify_not_idempotent df8 t8 (by decide)

/-- C9 counterexample: the label table `Pipe._indexify` actually
assigns differs from the specification's table: position 4
(`sec_rec_amp`) carries driver label `"sec"`, not `"secondary"`, and
position 7 (`rec_harm_db`) carries detector label `"secondary"`, not
`"receiver"` — identical to the label of `sec_harm_db`. -/
theorem Pipe.indexify_labels_cx :
    Pipe.indexifyLabels ≠ specIndexifyLabels ∧
    Pipe.indexifyLabels.getD 4 (Label.flat "") ≠
      Label.multi "secondary" "receiver" "amplitude" ∧
    Pipe.indexifyLabels.getD 7 (Label.flat "") = Label.multi "primary" "secondary" "db" := by
  decide

/-- C9 amended: on a one-row flat result table, `Pipe._indexify`
relabels the 8 derived columns positionally with its own table —
`prim_sec_*` as (primary, secondary, amplitude/phase), `prim_rec_*` as
(primary, receiver, amplitude/phase), `sec_rec_*` as
(*sec*, receiver, amplitude/phase), and *both* `sec_harm_db` and
`rec_harm_db` as (primary, secondary, db) — and then sorts columns
lexicographically: the `sec_rec_amp` value `v5` ends up under
`("sec", "receiver", "amplitude")` and the `rec_harm_db` value `v8`
under the second copy of `("primary", "secondary", "db")`. -/
theorem Pipe.indexify_actual_labels (p q v1 v2 v3 v4 v5 v6 v7 v8 : PyVal) :
    Pipe.indexify { indexNames := [none], colNames := [none], index := [[PyVal.num 0]],
                    cols := Pipe.flatColumns,
                    rows := [[p, q, v1, v2, v3, v4, v5, v6, v7, v8]] } = Except.ok
      { indexNames := [some "pipe", some "pos"],
        colNames := [some "driver", some "detector", some "quantity"],
        index := [[p, q]],
        cols := [Label.multi "primary" "receiver" "amplitude",
                 Label.multi "primary" "receiver" "phase",
                 Label.multi "primary" "secondary" "amplitude",
                 Label.multi "primary" "secondary" "db",
                 Label.multi "primary" "secondary" "db",
                 Label.multi "primary" "secondary" "phase",
                 Label.multi "sec" "receiver" "amplitude",
                 Label.multi "sec" "receiver" "phase"],
        rows := [[v3, v4, v1, v7, v8, v2, v5, v6]] } := rfl
